import Mathlib

/-!
Verification of the daily-bar read path of `BaseDataSource`
(`src/rqalpha/data/base_data_source.py`): instrument-type routing,
bar-series selection, exact-date point lookup (`get_bar`), windowed
history lookup (`history_bars`), and the split/dividend adjustment
engine (`_adjust_bar` with the step-function `_factor_for_date`).

Modelling conventions:
* Dates are the integer-encoded values the source compares (the source
  converts datetimes to `uint64` integers at the boundary); we carry them
  as rationals so they live in the same ordered field as the bar values.
* A bar row of a numpy structured array is a function from field name to
  rational value; a series carries its schema (`dtype.names`) separately.
* `searchsorted` on a sorted column equals the first-index scan used here
  (`List.findIdx`); all theorems that depend on order carry an explicit
  sortedness hypothesis.
* Python exceptions (`KeyError` from the type map, `TypeError` from
  `x not in None`, `IndexError` from indexing an empty array) are explicit
  `err` outcomes; returning Python `None` is the separate `noData` outcome.
* Python negative indexing (`xs[-1]`, and `xs[pos-1]` when `pos = 0`) is
  modelled by `pyGet`.
-/

/-- A bar row: the value of each named field of one numpy structured-array
row. Fields outside a series' schema are never consulted. -/
abbrev BarRow := String → ℚ

/-- A bar series: the schema (`dtype.names`) and the ordered rows. -/
structure BarSeries where
  names : List String
  rows : List BarRow

/-- The per-instrument factor series returned by the ex-cum factor store:
parallel columns of breakpoint dates and cumulative factors. -/
structure FactorSeries where
  start_date : List ℚ
  ex_cum_factor : List ℚ

/-- An instrument as consumed by this layer: only `order_book_id` and the
category tag `type` are read. -/
structure Instrument where
  order_book_id : String
  type : String

/-- The external stores consumed by the read path: the day-bar store of each
partition (`_day_bars[i].get_bars`) and the ex-cum factor store
(`_ex_cum_factor.get_factors`). -/
structure DataSource where
  dayBars : Nat → String → Option BarSeries
  exCumFactor : String → Option FactorSeries

/-- The `fields` argument of `history_bars`: Python `None`, a single string,
or a list of strings. -/
inductive FieldsSel where
  | noneSel
  | scalar (f : String)
  | listSel (fs : List String)

/-- Outcome of `history_bars`: Python `None` (`noData`), a structured array
(`series`), a single column (`column`), or a raised exception (`err`). -/
inductive HResult where
  | noData
  | series (s : BarSeries)
  | column (c : List ℚ)
  | err (e : String)

/-- Python list indexing `xs[i]` including negative indices
(`xs[-1]` is the last element). Out-of-range reads default to 0; every use
below is guarded to stay in range exactly where the source is. -/
def pyGet (l : List ℚ) (i : Int) : ℚ :=
  if i < 0 then l.getD (l.length - Int.toNat (-i)) 0 else l.getD (Int.toNat i) 0

/-- numpy `a.searchsorted(v, side='right')` on a sorted column: the first
index whose element exceeds `v` (equivalently the right insertion point). -/
def searchsorted_right (l : List ℚ) (v : ℚ) : Nat :=
  l.findIdx (fun x => decide (v < x))

/-- numpy `a.searchsorted(v)` (default `side='left'`) on a sorted column:
the first index whose element is at least `v`. -/
def searchsorted_left (l : List ℚ) (v : ℚ) : Nat :=
  l.findIdx (fun x => decide (v ≤ x))

/-- The `datetime` column of a series (`bars['datetime']`). -/
def datetimes (s : BarSeries) : List ℚ := s.rows.map (fun r => r "datetime")

/-- Number of entries of a column that are at or before date `d`; for a
sorted column this is the right insertion point of `d`. -/
def countLe (l : List ℚ) (d : ℚ) : Nat :=
  (l.filter (fun x => decide (x ≤ d))).length

/-- The `INSTRUMENT_TYPE_MAP` dict of the source. -/
def INSTRUMENT_TYPE_MAP : List (String × Nat) :=
  [("CS", 0), ("INDX", 1), ("Future", 2), ("ETF", 3), ("LOF", 3),
   ("FenjiA", 3), ("FenjiB", 3), ("FenjiMu", 3)]

/-- The `_index_of` router: dict lookup; `Option.none` models the `KeyError`
raised on an unknown category. -/
def index_of (t : String) : Option Nat :=
  INSTRUMENT_TYPE_MAP.lookup t

/-- The `PRICE_FIELDS` set of the source. -/
def PRICE_FIELDS : List String :=
  ["open", "close", "high", "low", "limit_up", "limit_down",
   "acc_net_value", "unit_net_value"]

/-- The source binds `FIELDS_REQUIRE_ADJUSTMENT = PRICE_FIELDS.copy().add('volume')`;
in Python `set.add` returns `None`, so the class attribute is `None`, not a
set. We model the attribute by its actual value. -/
def FIELDS_REQUIRE_ADJUSTMENT : Option (List String) := Option.none

/-- `_are_fields_valid`: `None` is valid; a single name must be among the
series' field names; an iterable must be contained in them. -/
def are_fields_valid (fields : FieldsSel) (valid : List String) : Bool :=
  match fields with
  | FieldsSel.noneSel => true
  | FieldsSel.scalar f => decide (f ∈ valid)
  | FieldsSel.listSel fs => fs.all (fun f => decide (f ∈ valid))

/-- `_factor_for_date`: if `d` exceeds the last breakpoint return the last
factor, otherwise return `factors[pos-1]` for the right insertion point
`pos` — including Python's wrap-around `factors[-1]` when `pos = 0`. -/
def factor_for_date (dates : List ℚ) (factors : List ℚ) (d : ℚ) : ℚ :=
  if pyGet dates (-1) < d then pyGet factors (-1)
  else pyGet factors ((searchsorted_right dates d : Int) - 1)

/-- `_filtered_day_bars` body: keep the rows with positive volume
(`bars[bars['volume'] > 0]`). -/
def filterVolume (b : BarSeries) : BarSeries :=
  { names := b.names, rows := b.rows.filter (fun r => decide (0 < r "volume")) }

/-- `bars if fields is None else bars[fields]`: full series, one projected
column for a scalar name, or a schema-restricted series for a list. -/
def projectBars (bars : BarSeries) (fields : FieldsSel) : HResult :=
  match fields with
  | FieldsSel.noneSel => HResult.series bars
  | FieldsSel.scalar f => HResult.column (bars.rows.map (fun r => r f))
  | FieldsSel.listSel fs => HResult.series { names := fs, rows := bars.rows }

/-- The per-row rewrite of `_adjust_bar`'s field loop: over the result's
schema, price fields are multiplied by the row factor, `volume` is divided
by it, everything else is untouched. -/
def adjustRow (names : List String) (k : ℚ) (r : BarRow) : BarRow :=
  fun f =>
    if f ∈ names then
      if f ∈ PRICE_FIELDS then r f * k
      else if f = "volume" then r f / k
      else r f
    else r f

/-- The per-row factor vector of `_adjust_bar`'s slow path: the lines
`factors = np.array([_factor_for_date(...) for d in bars['datetime']])` and
`factors /= factors[-1]`. -/
def normFactors (ex : FactorSeries) (bars : BarSeries) : List ℚ :=
  ((datetimes bars).map
      (fun d => factor_for_date ex.start_date ex.ex_cum_factor d)).map
    (fun x => x / pyGet ((datetimes bars).map
      (fun d => factor_for_date ex.start_date ex.ex_cum_factor d)) (-1))

/-- `_adjust_bar`: no factor series means no adjustment; equal step-function
factors at the two endpoint dates short-circuit to the raw slice; otherwise
the per-row factors are normalized by the factor at the last date and
applied per field. Indexing `bars['datetime'][0]` on an empty slice raises
`IndexError`. -/
def adjust_bar (src : DataSource) (order_book_id : String) (bars : BarSeries)
    (fields : FieldsSel) : HResult :=
  match src.exCumFactor order_book_id with
  | Option.none => projectBars bars fields
  | Option.some ex =>
    if bars.rows.length = 0 then HResult.err "IndexError"
    else
      if factor_for_date ex.start_date ex.ex_cum_factor
            ((datetimes bars).getD 0 0)
          = factor_for_date ex.start_date ex.ex_cum_factor
            (pyGet (datetimes bars) (-1)) then
        projectBars bars fields
      else
        match fields with
        | FieldsSel.scalar f =>
          if f ∈ PRICE_FIELDS then
            HResult.column
              (List.zipWith (fun r k => r f * k) bars.rows (normFactors ex bars))
          else if f = "volume" then
            HResult.column
              (List.zipWith (fun r k => r f / k) bars.rows (normFactors ex bars))
          else
            HResult.column (bars.rows.map (fun r => r f))
        | FieldsSel.noneSel =>
          HResult.series
            ⟨bars.names,
              List.zipWith (fun r k => adjustRow bars.names k r) bars.rows
                (normFactors ex bars)⟩
        | FieldsSel.listSel fs =>
          HResult.series
            ⟨fs,
              List.zipWith (fun r k => adjustRow fs k r) bars.rows
                (normFactors ex bars)⟩

/-- The `left` bound of the slice of `history_bars`:
`left = i - bar_count if i >= bar_count else 0` for the right insertion
point `i` of the reference date. -/
def windowLeft (bars : BarSeries) (bar_count : Nat) (dt : ℚ) : Nat :=
  if bar_count ≤ searchsorted_right (datetimes bars) dt then
    searchsorted_right (datetimes bars) dt - bar_count
  else 0

/-- The slice step of `history_bars`: `bars[left:i]`. -/
def windowSlice (bars : BarSeries) (bar_count : Nat) (dt : ℚ) : BarSeries :=
  ⟨bars.names,
    (bars.rows.drop (windowLeft bars bar_count dt)).take
      (searchsorted_right (datetimes bars) dt - windowLeft bars bar_count dt)⟩

/-- The series-selection step of `history_bars`: the volume-filtered series
for a `CS` instrument when suspension skipping is on, the raw series
otherwise. -/
def selected_bars (src : DataSource) (ins : Instrument) (i : Nat)
    (skip_suspended : Bool) : Option BarSeries :=
  if skip_suspended ∧ ins.type = "CS" then
    Option.map filterVolume (src.dayBars i ins.order_book_id)
  else src.dayBars i ins.order_book_id

/-- `history_bars` for the daily frequency (the only implemented one):
route the instrument, select the series, validate the field selector,
slice the window, and pass non-exempt multi-row windows to the adjustment
engine. The scalar-field test `fields not in FIELDS_REQUIRE_ADJUSTMENT`
raises `TypeError` because that attribute is `None`. -/
def history_bars (src : DataSource) (ins : Instrument) (bar_count : Nat)
    (fields : FieldsSel) (dt : ℚ) (skip_suspended : Bool) : HResult :=
  match index_of ins.type with
  | Option.none => HResult.err "KeyError"
  | Option.some i =>
    match selected_bars src ins i skip_suspended with
    | Option.none => HResult.noData
    | Option.some bars =>
      if are_fields_valid fields bars.names then
        let win := windowSlice bars bar_count dt
        if ins.type = "Future" ∨ ins.type = "INDX" ∨ win.rows.length = 1 then
          projectBars win fields
        else
          match fields with
          | FieldsSel.scalar f =>
            match FIELDS_REQUIRE_ADJUSTMENT with
            | Option.none => HResult.err "TypeError"
            | Option.some s =>
              if f ∈ s then adjust_bar src ins.order_book_id win fields
              else projectBars win fields
          | FieldsSel.noneSel => adjust_bar src ins.order_book_id win fields
          | FieldsSel.listSel fs =>
            adjust_bar src ins.order_book_id win (FieldsSel.listSel fs)
      else HResult.noData

/-- `get_bar` for the daily frequency: left binary search for the exact
date; `None` when the series is absent, the position is out of range, or
the date there differs; otherwise the raw row, unadjusted. -/
def get_bar (src : DataSource) (ins : Instrument) (dt : ℚ) :
    Except String (Option BarRow) :=
  match index_of ins.type with
  | Option.none => Except.error "KeyError"
  | Option.some i =>
    match src.dayBars i ins.order_book_id with
    | Option.none => Except.ok Option.none
    | Option.some bars =>
      let pos := searchsorted_left (datetimes bars) dt
      if bars.rows.length ≤ pos then Except.ok Option.none
      else if (datetimes bars).getD pos 0 = dt then
        Except.ok (Option.some (bars.rows.getD pos (fun _ => 0)))
      else Except.ok Option.none

/-- A sample bar row with the given datetime, close and volume. -/
def mkRow (d c v : ℚ) : BarRow :=
  fun f => if f = "datetime" then d else if f = "close" then c
           else if f = "volume" then v else 0

/-- A two-row common-stock series (dates 1 and 2) used to exercise the
scalar-field branch of `history_bars`. -/
def csSeries : BarSeries :=
  ⟨["datetime", "close", "volume"], [mkRow 1 10 100, mkRow 2 20 200]⟩

/-- A data source holding `csSeries` for stock "000001.XSHE" and no factor
series at all. -/
def srcA : DataSource :=
  { dayBars := fun i obid =>
      if i = 0 ∧ obid = "000001.XSHE" then Option.some csSeries else Option.none,
    exCumFactor := fun _ => Option.none }

/-- C1: refuted on the code as written. A daily `history_bars` call on a
non-exempt (`CS`) instrument, two-row window, scalar field `"datetime"`
(a valid field that is not a price/volume field) does not return the
column unadjusted: it raises `TypeError`, because
`FIELDS_REQUIRE_ADJUSTMENT` is `None` (`set.add` returns `None`), so
`fields not in None` fails. -/
theorem history_bars_scalar_passthrough_bug :
    history_bars srcA ⟨"000001.XSHE", "CS"⟩ 2 (FieldsSel.scalar "datetime") 2 false
      = HResult.err "TypeError" := rfl

/-- A one-row series (date 20) for stock "600000.XSHG". -/
def sgSeries : BarSeries :=
  ⟨["datetime", "close", "volume"], [mkRow 20 10 100]⟩

/-- A data source where "600000.XSHG" has `sgSeries` and a one-breakpoint
factor series. -/
def srcB : DataSource :=
  { dayBars := fun i obid =>
      if i = 0 ∧ obid = "600000.XSHG" then Option.some sgSeries else Option.none,
    exCumFactor := fun obid =>
      if obid = "600000.XSHG" then Option.some ⟨[5], [2]⟩ else Option.none }

/-- C2: refuted on the code as written. A daily `history_bars` call whose
window is empty (reference date 10 precedes the only bar date 20) on a
`CS` instrument that has a factor series raises `IndexError` inside
`_adjust_bar` (`bars['datetime'][0]` on an empty slice) instead of
returning the empty no-data result. -/
theorem history_bars_empty_window_indexerror :
    history_bars srcB ⟨"600000.XSHG", "CS"⟩ 1 FieldsSel.noneSel 10 false
      = HResult.err "IndexError" := rfl

/-- A two-row series for stock "000002.XSHE". -/
def cs2Series : BarSeries :=
  ⟨["datetime", "close", "volume"], [mkRow 1 10 100, mkRow 2 20 200]⟩

/-- A data source holding `cs2Series` with no factor series for any
instrument, so every window trivially has a constant adjustment factor. -/
def srcC : DataSource :=
  { dayBars := fun i obid =>
      if i = 0 ∧ obid = "000002.XSHE" then Option.some cs2Series else Option.none,
    exCumFactor := fun _ => Option.none }

/-- C5: refuted on the code as written. For an instrument with no factor
series (hence a constant factor over any window), `history_bars` with the
scalar selector `"close"` does not return the raw projected column: the
scalar-field test `fields not in FIELDS_REQUIRE_ADJUSTMENT` raises
`TypeError` (the attribute is `None`) before the adjustment engine's
pass-through can run. -/
theorem history_bars_constant_factor_scalar_bug :
    history_bars srcC ⟨"000002.XSHE", "CS"⟩ 2 (FieldsSel.scalar "close") 2 false
      = HResult.err "TypeError" := rfl

/-- C3 counterexample: for breakpoints at dates 10 and 20 with factors 2
and 3, a query date 5 strictly before the first breakpoint returns the
LAST factor 3 (Python `factors[pos-1]` with `pos = 0` wraps to
`factors[-1]`), not the earliest factor 2 as claimed. -/
theorem factor_for_date_before_first_counterexample :
    factor_for_date [(10 : ℚ), 20] [(2 : ℚ), 3] 5 = 3 ∧
      ¬ factor_for_date [(10 : ℚ), 20] [(2 : ℚ), 3] 5 = 2 := by
  constructor
  · rfl
  · decide

/-- Decidable strict-ascending check for a date column, matching the data
model's invariant that bar series and breakpoint series are strictly
ascending by date. -/
def ascending : List ℚ → Bool
  | [] => true
  | [_] => true
  | a :: b :: t => decide (a < b) && ascending (b :: t)

theorem ascending_iff_chain : ∀ (l : List ℚ),
    ascending l = true ↔ l.Chain' (fun a b => a < b)
  | [] => by simp [ascending]
  | [a] => by simp [ascending]
  | a :: b :: t => by
    have ih := ascending_iff_chain (b :: t)
    simp [ascending, List.chain'_cons, ih]

theorem ascending_pairwise (l : List ℚ) (h : ascending l = true) :
    l.Pairwise (fun a b => a < b) := by
  have := (ascending_iff_chain l).mp h
  exact List.chain'_iff_pairwise.mp this

theorem pairwise_getD_lt (l : List ℚ) (h : l.Pairwise (fun a b => a < b))
    (i j : Nat) (hij : i < j) (hj : j < l.length) :
    l.getD i 0 < l.getD j 0 := by
  rw [List.getD_eq_getElem l 0 (lt_trans hij hj), List.getD_eq_getElem l 0 hj]
  exact List.pairwise_iff_get.mp h ⟨i, lt_trans hij hj⟩ ⟨j, hj⟩ hij

theorem findIdx_getD_true (p : ℚ → Bool) :
    ∀ (l : List ℚ), l.findIdx p < l.length → p (l.getD (l.findIdx p) 0) = true := by
  intro l
  induction l with
  | nil => simp
  | cons x xs ih =>
    intro h
    by_cases hx : p x = true
    · simp [List.findIdx_cons, hx]
    · rw [List.findIdx_cons] at h ⊢
      rw [Bool.not_eq_true] at hx
      rw [hx] at h ⊢
      simp only [cond_false] at h ⊢
      rw [List.getD_cons_succ]
      exact ih (by simpa using h)

theorem findIdx_le_of_true (p : ℚ → Bool) :
    ∀ (l : List ℚ) (j : Nat), j < l.length → p (l.getD j 0) = true →
      l.findIdx p ≤ j := by
  intro l
  induction l with
  | nil => simp
  | cons x xs ih =>
    intro j hj hp
    by_cases hx : p x = true
    · simp [List.findIdx_cons, hx]
    · rw [Bool.not_eq_true] at hx
      rw [List.findIdx_cons, hx]
      simp only [cond_false]
      cases j with
      | zero =>
        rw [List.getD_cons_zero] at hp
        rw [hp] at hx
        exact absurd hx (by simp)
      | succ j2 =>
        rw [List.getD_cons_succ] at hp
        have := ih j2 (by simpa using hj) hp
        omega

theorem findIdx_eq_length_of_false (p : ℚ → Bool) :
    ∀ (l : List ℚ), (∀ x ∈ l, p x = false) → l.findIdx p = l.length := by
  intro l
  induction l with
  | nil => simp
  | cons x xs ih =>
    intro h
    rw [List.findIdx_cons, h x (by simp)]
    simp only [cond_false, List.length_cons]
    rw [ih (fun y hy => h y (by simp [hy]))]

theorem findIdx_count (dt : ℚ) :
    ∀ (l : List ℚ), l.Pairwise (fun a b => a ≤ b) →
      l.findIdx (fun x => decide (dt < x)) = countLe l dt := by
  intro l
  induction l with
  | nil => intro _; rfl
  | cons x xs ih =>
    intro h
    rw [List.pairwise_cons] at h
    by_cases hx : dt < x
    · rw [List.findIdx_cons]
      rw [decide_eq_true hx]
      simp only [cond_true]
      have hnil : xs.filter (fun y => decide (y ≤ dt)) = [] := by
        rw [List.filter_eq_nil_iff]
        intro y hy
        have h1 : x ≤ y := h.1 y hy
        simp only [decide_eq_true_eq]
        exact not_le.mpr (lt_of_lt_of_le hx h1)
      unfold countLe
      rw [List.filter_cons]
      rw [decide_eq_false (not_le.mpr hx)]
      simp [hnil]
    · rw [List.findIdx_cons]
      rw [decide_eq_false hx]
      simp only [cond_false]
      unfold countLe
      rw [List.filter_cons]
      rw [decide_eq_true (not_lt.mp hx)]
      simp only [ite_true, List.length_cons]
      unfold countLe at ih
      rw [ih h.2]

theorem lookup_cons_ne (a k : String) (b : Nat) (es : List (String × Nat))
    (h : a ≠ k) : List.lookup a ((k, b) :: es) = List.lookup a es := by
  simp [List.lookup, beq_eq_false_iff_ne.mpr h]

/-- C9: the instrument-type router. Any category tag outside the closed set
is a lookup failure (`KeyError`, modelled as `Option.none` — no silent
fallback); every category inside the set maps to its fixed partition:
CS to 0, INDX to 1, Future to 2, and the four fund-like categories to 3. -/
theorem index_of_router :
    (∀ t : String,
        t ∉ ["CS", "INDX", "Future", "ETF", "LOF", "FenjiA", "FenjiB", "FenjiMu"] →
          index_of t = Option.none) ∧
      index_of "CS" = Option.some 0 ∧ index_of "INDX" = Option.some 1 ∧
      index_of "Future" = Option.some 2 ∧ index_of "ETF" = Option.some 3 ∧
      index_of "LOF" = Option.some 3 ∧ index_of "FenjiA" = Option.some 3 ∧
      index_of "FenjiB" = Option.some 3 ∧ index_of "FenjiMu" = Option.some 3 := by
  constructor
  · intro t ht
    simp only [List.mem_cons, List.not_mem_nil, or_false, not_or] at ht
    obtain ⟨h1, h2, h3, h4, h5, h6, h7, h8⟩ := ht
    unfold index_of INSTRUMENT_TYPE_MAP
    rw [lookup_cons_ne t "CS" 0 _ h1, lookup_cons_ne t "INDX" 1 _ h2,
      lookup_cons_ne t "Future" 2 _ h3, lookup_cons_ne t "ETF" 3 _ h4,
      lookup_cons_ne t "LOF" 3 _ h5, lookup_cons_ne t "FenjiA" 3 _ h6,
      lookup_cons_ne t "FenjiB" 3 _ h7, lookup_cons_ne t "FenjiMu" 3 _ h8]
    rfl
  · exact ⟨rfl, rfl, rfl, rfl, rfl, rfl, rfl, rfl⟩

/-- Witness for C9 at the concrete unknown category "Bond". -/
theorem index_of_router_witness :
    ("Bond" ∉ ["CS", "INDX", "Future", "ETF", "LOF", "FenjiA", "FenjiB", "FenjiMu"]) ∧
      index_of "Bond" = Option.none :=
  ⟨by decide, index_of_router.1 "Bond" (by decide)⟩

theorem pyGet_neg_one (l : List ℚ) : pyGet l (-1) = l.getD (l.length - 1) 0 := rfl

theorem ascending_getD_le_last (l : List ℚ) (h : ascending l = true)
    (j : Nat) (hj : j < l.length) : l.getD j 0 ≤ l.getD (l.length - 1) 0 := by
  have hp := ascending_pairwise l h
  rcases Nat.lt_or_ge j (l.length - 1) with hlt | hge
  · exact le_of_lt (pairwise_getD_lt l hp j (l.length - 1) hlt (by omega))
  · have hj2 : j = l.length - 1 := by omega
    rw [hj2]

theorem ascending_mem_le_last (l : List ℚ) (h : ascending l = true)
    (x : ℚ) (hx : x ∈ l) : x ≤ l.getD (l.length - 1) 0 := by
  obtain ⟨n, hn⟩ := List.mem_iff_get.mp hx
  have hx2 : l.getD n.1 0 = x := by
    rw [List.getD_eq_getElem l 0 n.2, ← List.get_eq_getElem]
    exact hn
  rw [← hx2]
  exact ascending_getD_le_last l h n.1 n.2

/-- C3 (amended): for a non-empty strictly ascending breakpoint sequence,
a query date strictly before the FIRST breakpoint returns the LAST
breakpoint's factor (the source computes `factors[pos-1]` with `pos = 0`,
and Python's negative indexing wraps to the final element) — not the
earliest factor as the original claim states; a date at or after the last
breakpoint returns the last factor; and a date at or after the first
breakpoint returns the factor of the last breakpoint at or before it
(the `countLe`-th breakpoint, right-continuous step function). -/
theorem factor_for_date_amended (dates factors : List ℚ) (d : ℚ)
    (hne : dates ≠ []) (hasc : ascending dates = true)
    (hlen : factors.length = dates.length) :
    (d < dates.getD 0 0 → factor_for_date dates factors d = pyGet factors (-1)) ∧
    (pyGet dates (-1) ≤ d → factor_for_date dates factors d = pyGet factors (-1)) ∧
    (dates.getD 0 0 ≤ d →
      factor_for_date dates factors d = factors.getD (countLe dates d - 1) 0) := by
  have h0len : 0 < dates.length := List.length_pos.mpr hne
  have hple : dates.Pairwise (fun a b => a ≤ b) :=
    (ascending_pairwise dates hasc).imp le_of_lt
  have hcount : searchsorted_right dates d = countLe dates d := by
    unfold searchsorted_right
    exact findIdx_count d dates hple
  refine ⟨?_, ?_, ?_⟩
  · intro hd
    have hfirstlast : dates.getD 0 0 ≤ pyGet dates (-1) := by
      rw [pyGet_neg_one]
      exact ascending_getD_le_last dates hasc 0 h0len
    have hnotlt : ¬ pyGet dates (-1) < d :=
      not_lt.mpr (le_of_lt (lt_of_lt_of_le hd hfirstlast))
    unfold factor_for_date
    rw [if_neg hnotlt]
    have hpos : searchsorted_right dates d = 0 := by
      cases dates with
      | nil => exact absurd rfl hne
      | cons x xs =>
        unfold searchsorted_right
        rw [List.findIdx_cons, decide_eq_true (by simpa using hd)]
        rfl
    rw [hpos]
    norm_num
  · intro hd
    by_cases hgt : pyGet dates (-1) < d
    · unfold factor_for_date
      rw [if_pos hgt]
    · have hdeq : d = pyGet dates (-1) := le_antisymm (not_lt.mp hgt) hd
      unfold factor_for_date
      rw [if_neg hgt]
      have hpos : searchsorted_right dates d = dates.length := by
        unfold searchsorted_right
        apply findIdx_eq_length_of_false
        intro x hx
        apply decide_eq_false
        have hxle : x ≤ pyGet dates (-1) := by
          rw [pyGet_neg_one]
          exact ascending_mem_le_last dates hasc x hx
        rw [hdeq]
        exact not_lt.mpr hxle
      rw [hpos, pyGet_neg_one]
      unfold pyGet
      rw [if_neg (by omega : ¬ ((dates.length : Int) - 1 < 0))]
      congr 1
      omega
  · intro hd
    by_cases hgt : pyGet dates (-1) < d
    · unfold factor_for_date
      rw [if_pos hgt]
      have hall : countLe dates d = dates.length := by
        unfold countLe
        rw [List.filter_eq_self.mpr ?side]
        case side =>
          intro x hx
          apply decide_eq_true
          have hxle : x ≤ pyGet dates (-1) := by
            rw [pyGet_neg_one]
            exact ascending_mem_le_last dates hasc x hx
          exact le_of_lt (lt_of_le_of_lt hxle hgt)
      rw [hall, pyGet_neg_one]
      congr 1
      omega
    · unfold factor_for_date
      rw [if_neg hgt]
      have hpos1 : 1 ≤ searchsorted_right dates d := by
        cases dates with
        | nil => exact absurd rfl hne
        | cons x xs =>
          unfold searchsorted_right
          rw [List.findIdx_cons,
            decide_eq_false (not_lt.mpr (by simpa using hd))]
          simp only [cond_false]
          omega
      rw [hcount] at hpos1
      rw [hcount]
      unfold pyGet
      rw [if_neg (by omega : ¬ ((countLe dates d : Int) - 1 < 0))]
      congr 1
      omega

/-- Witness for C3 (amended) at the concrete breakpoints 10, 20 with
factors 2, 3: query 5 (before the first breakpoint) yields the last factor,
query 25 (after the last) yields the last factor, query 15 yields the
factor of the last breakpoint at or before it. -/
theorem factor_for_date_amended_witness :
    (([(10 : ℚ), 20] : List ℚ) ≠ [] ∧ ascending [(10 : ℚ), 20] = true ∧
        ([(2 : ℚ), 3] : List ℚ).length = ([(10 : ℚ), 20] : List ℚ).length) ∧
      factor_for_date [(10 : ℚ), 20] [(2 : ℚ), 3] 5 = pyGet [(2 : ℚ), 3] (-1) ∧
      factor_for_date [(10 : ℚ), 20] [(2 : ℚ), 3] 25 = pyGet [(2 : ℚ), 3] (-1) ∧
      factor_for_date [(10 : ℚ), 20] [(2 : ℚ), 3] 15
        = ([(2 : ℚ), 3] : List ℚ).getD (countLe [(10 : ℚ), 20] 15 - 1) 0 :=
  ⟨⟨by decide, by decide, by decide⟩,
    (factor_for_date_amended [(10 : ℚ), 20] [(2 : ℚ), 3] 5 (by decide) (by decide)
      (by decide)).1 (by decide),
    (factor_for_date_amended [(10 : ℚ), 20] [(2 : ℚ), 3] 25 (by decide) (by decide)
      (by decide)).2.1 (by decide),
    (factor_for_date_amended [(10 : ℚ), 20] [(2 : ℚ), 3] 15 (by decide) (by decide)
      (by decide)).2.2 (by decide)⟩

/-- C7: daily `get_bar` is an exact-date, unadjusted point lookup. With a
valid category and a strictly ascending date column: an absent series gives
`None`; if no row's date equals the query date the result is `None`; if row
`j` has exactly the query date, the result is that raw row (no adjustment is
ever applied on this path). -/
theorem get_bar_exact_lookup (src : DataSource) (ins : Instrument) (dt : ℚ)
    (i : Nat) (h1 : index_of ins.type = Option.some i) :
    (src.dayBars i ins.order_book_id = Option.none →
        get_bar src ins dt = Except.ok Option.none) ∧
      (∀ bars, src.dayBars i ins.order_book_id = Option.some bars →
        ascending (datetimes bars) = true →
        ((∀ j, j < bars.rows.length → (datetimes bars).getD j 0 ≠ dt) →
            get_bar src ins dt = Except.ok Option.none) ∧
          (∀ j, j < bars.rows.length → (datetimes bars).getD j 0 = dt →
            get_bar src ins dt
              = Except.ok (Option.some (bars.rows.getD j (fun _ => 0))))) := by
  constructor
  · intro hb
    simp only [get_bar, h1, hb]
  · intro bars hb hasc
    have hlen : (datetimes bars).length = bars.rows.length := by
      simp [datetimes]
    have hun : get_bar src ins dt =
        (if bars.rows.length ≤ searchsorted_left (datetimes bars) dt then
          Except.ok Option.none
         else if (datetimes bars).getD (searchsorted_left (datetimes bars) dt) 0 = dt then
          Except.ok (Option.some
            (bars.rows.getD (searchsorted_left (datetimes bars) dt) (fun _ => 0)))
         else Except.ok Option.none) := by
      simp only [get_bar, h1, hb]
    constructor
    · intro hno
      rw [hun]
      by_cases hge : bars.rows.length ≤ searchsorted_left (datetimes bars) dt
      · rw [if_pos hge]
      · rw [if_neg hge]
        rw [if_neg (hno _ (not_le.mp hge))]
    · intro j hj hdt
      have hub : searchsorted_left (datetimes bars) dt ≤ j :=
        findIdx_le_of_true (fun x => decide (dt ≤ x)) (datetimes bars) j
          (by rw [hlen]; exact hj) (decide_eq_true (le_of_eq hdt.symm))
      have hlb : j ≤ searchsorted_left (datetimes bars) dt := by
        by_contra hcon
        push_neg at hcon
        have hjlen : j < (datetimes bars).length := by rw [hlen]; exact hj
        have hposlt : searchsorted_left (datetimes bars) dt < (datetimes bars).length :=
          lt_trans hcon hjlen
        have htrue := findIdx_getD_true (fun x => decide (dt ≤ x)) (datetimes bars) hposlt
        have hle : dt ≤ (datetimes bars).getD (searchsorted_left (datetimes bars) dt) 0 :=
          of_decide_eq_true htrue
        have hmono := pairwise_getD_lt (datetimes bars)
          (ascending_pairwise (datetimes bars) hasc)
          (searchsorted_left (datetimes bars) dt) j hcon hjlen
        rw [hdt] at hmono
        exact absurd hmono (not_lt.mpr hle)
      have hpos : searchsorted_left (datetimes bars) dt = j := le_antisymm hub hlb
      rw [hun, hpos, if_neg (by omega : ¬ bars.rows.length ≤ j), if_pos hdt]

/-- A two-row index series (dates 10 and 20) used to witness `get_bar`. -/
def gSeries : BarSeries :=
  ⟨["datetime", "close", "volume"], [mkRow 10 5 50, mkRow 20 6 60]⟩

/-- A data source holding `gSeries` for index "000001.XSHG" in partition 1. -/
def srcG : DataSource :=
  { dayBars := fun i obid =>
      if i = 1 ∧ obid = "000001.XSHG" then Option.some gSeries else Option.none,
    exCumFactor := fun _ => Option.none }

/-- Witness for C7: looking up date 20 in `gSeries` returns row 1 raw, and
looking up the absent date 15 returns `None`. -/
theorem get_bar_exact_lookup_witness :
    (index_of "INDX" = Option.some 1 ∧ ascending (datetimes gSeries) = true) ∧
      get_bar srcG ⟨"000001.XSHG", "INDX"⟩ 20
        = Except.ok (Option.some (gSeries.rows.getD 1 (fun _ => 0))) ∧
      get_bar srcG ⟨"000001.XSHG", "INDX"⟩ 15 = Except.ok Option.none :=
  ⟨⟨by decide, by decide⟩,
    ((get_bar_exact_lookup srcG ⟨"000001.XSHG", "INDX"⟩ 20 1 (by decide)).2
      gSeries rfl (by decide)).2 1 (by decide) (by decide),
    ((get_bar_exact_lookup srcG ⟨"000001.XSHG", "INDX"⟩ 15 1 (by decide)).2
      gSeries rfl (by decide)).1 (by decide)⟩

theorem adjustRow_not_adjusted (names : List String) (k : ℚ) (r : BarRow)
    (f : String) (h1 : f ∉ PRICE_FIELDS) (h2 : f ≠ "volume") :
    adjustRow names k r f = r f := by
  unfold adjustRow
  by_cases hn : f ∈ names
  · rw [if_pos hn, if_neg h1, if_neg h2]
  · rw [if_neg hn]

theorem getD_map_poly {α β : Type} (g : α → β) (l : List α) (j : Nat)
    (hj : j < l.length) (d : β) (d2 : α) : (l.map g).getD j d = g (l.getD j d2) := by
  rw [List.getD_eq_getElem _ _ (by simpa using hj), List.getD_eq_getElem _ _ hj,
    List.getElem_map]

theorem getD_zipWith (g : BarRow → ℚ → BarRow) :
    ∀ (a : List BarRow) (b : List ℚ) (j : Nat), j < a.length → j < b.length →
      ∀ (d : BarRow) (d2 : ℚ),
        (List.zipWith g a b).getD j d = g (a.getD j d) (b.getD j d2) := by
  intro a
  induction a with
  | nil =>
    intro b j h1
    simp at h1
  | cons x xs ih =>
    intro b j h1 h2 d d2
    cases b with
    | nil => simp at h2
    | cons y ys =>
      cases j with
      | zero => simp [List.zipWith]
      | succ j2 =>
        simp only [List.zipWith, List.getD_cons_succ]
        exact ih ys j2 (by simpa using h1) (by simpa using h2) d d2

theorem zipWith_apply_const (f : String) :
    ∀ (l : List BarRow) (l2 : List ℚ) (g : BarRow → ℚ → BarRow),
      (∀ r k, g r k f = r f) → l2.length = l.length →
        (List.zipWith g l l2).map (fun r => r f) = l.map (fun r => r f) := by
  intro l
  induction l with
  | nil => simp
  | cons x xs ih =>
    intro l2 g hg hlen
    cases l2 with
    | nil => simp at hlen
    | cons y ys =>
      simp only [List.zipWith, List.map_cons]
      rw [hg x y, ih ys g hg (by simpa using hlen)]

theorem projectBars_shape (w : BarSeries) (fields : FieldsSel) :
    (∀ s, projectBars w fields = HResult.series s →
        s.rows.length = w.rows.length ∧
          s.rows.map (fun r => r "datetime") = w.rows.map (fun r => r "datetime")) ∧
      (∀ c, projectBars w fields = HResult.column c → c.length = w.rows.length) := by
  cases fields with
  | noneSel =>
    constructor
    · intro s hs
      simp only [projectBars] at hs
      injection hs with h
      rw [← h]
      exact ⟨rfl, rfl⟩
    · intro c hc
      simp only [projectBars] at hc
      exact HResult.noConfusion hc
  | scalar f =>
    constructor
    · intro s hs
      simp only [projectBars] at hs
      exact HResult.noConfusion hs
    · intro c hc
      simp only [projectBars] at hc
      injection hc with h
      rw [← h, List.length_map]
  | listSel fs =>
    constructor
    · intro s hs
      simp only [projectBars] at hs
      injection hs with h
      rw [← h]
      exact ⟨rfl, rfl⟩
    · intro c hc
      simp only [projectBars] at hc
      exact HResult.noConfusion hc

theorem normFactors_length (ex : FactorSeries) (w : BarSeries) :
    (normFactors ex w).length = w.rows.length := by
  simp [normFactors, datetimes]

theorem datetimes_length (w : BarSeries) : (datetimes w).length = w.rows.length := by
  simp [datetimes]

theorem normFactors_getD (ex : FactorSeries) (w : BarSeries) (j : Nat)
    (hj : j < w.rows.length) :
    (normFactors ex w).getD j 0 =
      factor_for_date ex.start_date ex.ex_cum_factor ((datetimes w).getD j 0) /
        factor_for_date ex.start_date ex.ex_cum_factor (pyGet (datetimes w) (-1)) := by
  have hjd : j < (datetimes w).length := by rw [datetimes_length]; exact hj
  have hjm : j < ((datetimes w).map
      (fun d => factor_for_date ex.start_date ex.ex_cum_factor d)).length := by
    rw [List.length_map]; exact hjd
  unfold normFactors
  rw [getD_map_poly _ _ j hjm 0 0, getD_map_poly _ _ j hjd 0 0]
  congr 1
  have h0 : 0 < (datetimes w).length := by omega
  rw [pyGet_neg_one, pyGet_neg_one, List.length_map,
    getD_map_poly _ _ ((datetimes w).length - 1) (by omega) 0 0]

theorem adjust_bar_shape (src : DataSource) (obid : String) (w : BarSeries)
    (fields : FieldsSel) :
    (∀ s, adjust_bar src obid w fields = HResult.series s →
        s.rows.length = w.rows.length ∧
          s.rows.map (fun r => r "datetime") = w.rows.map (fun r => r "datetime")) ∧
      (∀ c, adjust_bar src obid w fields = HResult.column c →
        c.length = w.rows.length) := by
  cases hex : src.exCumFactor obid with
  | none =>
    have he : adjust_bar src obid w fields = projectBars w fields := by
      simp only [adjust_bar, hex]
    rw [he]
    exact projectBars_shape w fields
  | some ex =>
    by_cases hlen0 : w.rows.length = 0
    · have he : adjust_bar src obid w fields = HResult.err "IndexError" := by
        simp [adjust_bar, hex, hlen0]
      rw [he]
      exact ⟨fun s hs => HResult.noConfusion hs, fun c hc => HResult.noConfusion hc⟩
    · by_cases hfast : factor_for_date ex.start_date ex.ex_cum_factor
          ((datetimes w).getD 0 0)
          = factor_for_date ex.start_date ex.ex_cum_factor (pyGet (datetimes w) (-1))
      · have he : adjust_bar src obid w fields = projectBars w fields := by
          simp only [adjust_bar, hex]
          rw [if_neg hlen0, if_pos hfast]
        rw [he]
        exact projectBars_shape w fields
      · have hnl : (normFactors ex w).length = w.rows.length := normFactors_length ex w
        cases fields with
        | noneSel =>
          have he : adjust_bar src obid w FieldsSel.noneSel = HResult.series
              ⟨w.names, List.zipWith (fun r k => adjustRow w.names k r) w.rows
                (normFactors ex w)⟩ := by
            simp only [adjust_bar, hex]
            rw [if_neg hlen0, if_neg hfast]
          rw [he]
          constructor
          · intro s hs
            injection hs with h
            rw [← h]
            constructor
            · simp only [List.length_zipWith, hnl]
              exact Nat.min_self _
            · exact zipWith_apply_const "datetime" w.rows (normFactors ex w) _
                (fun r k => adjustRow_not_adjusted w.names k r "datetime"
                  (by decide) (by decide)) hnl
          · intro c hc
            exact HResult.noConfusion hc
        | listSel fs =>
          have he : adjust_bar src obid w (FieldsSel.listSel fs) = HResult.series
              ⟨fs, List.zipWith (fun r k => adjustRow fs k r) w.rows
                (normFactors ex w)⟩ := by
            simp only [adjust_bar, hex]
            rw [if_neg hlen0, if_neg hfast]
          rw [he]
          constructor
          · intro s hs
            injection hs with h
            rw [← h]
            constructor
            · simp only [List.length_zipWith, hnl]
              exact Nat.min_self _
            · exact zipWith_apply_const "datetime" w.rows (normFactors ex w) _
                (fun r k => adjustRow_not_adjusted fs k r "datetime"
                  (by decide) (by decide)) hnl
          · intro c hc
            exact HResult.noConfusion hc
        | scalar f =>
          by_cases hp : f ∈ PRICE_FIELDS
          · have he : adjust_bar src obid w (FieldsSel.scalar f) = HResult.column
                (List.zipWith (fun r k => r f * k) w.rows (normFactors ex w)) := by
              simp only [adjust_bar, hex]
              rw [if_neg hlen0, if_neg hfast]
              simp only [if_pos hp]
            rw [he]
            refine ⟨fun s hs => HResult.noConfusion hs, fun c hc => ?_⟩
            injection hc with h
            rw [← h]
            simp only [List.length_zipWith, hnl]
            exact Nat.min_self _
          · by_cases hv : f = "volume"
            · have he : adjust_bar src obid w (FieldsSel.scalar f) = HResult.column
                  (List.zipWith (fun r k => r f / k) w.rows (normFactors ex w)) := by
                simp only [adjust_bar, hex]
                rw [if_neg hlen0, if_neg hfast]
                simp only [if_neg hp, if_pos hv]
              rw [he]
              refine ⟨fun s hs => HResult.noConfusion hs, fun c hc => ?_⟩
              injection hc with h
              rw [← h]
              simp only [List.length_zipWith, hnl]
              exact Nat.min_self _
            · have he : adjust_bar src obid w (FieldsSel.scalar f) = HResult.column
                  (w.rows.map (fun r => r f)) := by
                simp only [adjust_bar, hex]
                rw [if_neg hlen0, if_neg hfast]
                simp only [if_neg hp, if_neg hv]
              rw [he]
              refine ⟨fun s hs => HResult.noConfusion hs, fun c hc => ?_⟩
              injection hc with h
              rw [← h, List.length_map]

theorem take_drop_swap {α : Type} :
    ∀ (l : List α) (a b : Nat), (l.drop a).take b = (l.take (a + b)).drop a := by
  intro l
  induction l with
  | nil => intro a b; simp
  | cons x xs ih =>
    intro a b
    cases a with
    | zero => simp
    | succ a2 =>
      have hh : a2 + 1 + b = (a2 + b) + 1 := by omega
      rw [hh]
      simp only [List.drop_succ_cons, List.take_succ_cons]
      exact ih a2 b

theorem windowSlice_spec (bars : BarSeries) (n : Nat) (dt : ℚ)
    (hasc : ascending (datetimes bars) = true) :
    (windowSlice bars n dt).rows
        = (bars.rows.take (countLe (datetimes bars) dt)).drop
            (countLe (datetimes bars) dt - min n (countLe (datetimes bars) dt)) ∧
      (windowSlice bars n dt).rows.length = min n (countLe (datetimes bars) dt) := by
  have hk : searchsorted_right (datetimes bars) dt = countLe (datetimes bars) dt := by
    unfold searchsorted_right
    exact findIdx_count dt _ ((ascending_pairwise _ hasc).imp (fun h => le_of_lt h))
  have hkle : countLe (datetimes bars) dt ≤ bars.rows.length := by
    have h1 := List.length_filter_le (fun x => decide (x ≤ dt)) (datetimes bars)
    have h2 : (datetimes bars).length = bars.rows.length := datetimes_length bars
    unfold countLe
    omega
  unfold windowSlice windowLeft
  rw [hk]
  by_cases hnk : n ≤ countLe (datetimes bars) dt
  · rw [if_pos hnk]
    have hmin : min n (countLe (datetimes bars) dt) = n := Nat.min_eq_left hnk
    rw [hmin]
    constructor
    · rw [take_drop_swap]
      have hA : countLe (datetimes bars) dt - n
          + (countLe (datetimes bars) dt - (countLe (datetimes bars) dt - n))
          = countLe (datetimes bars) dt := by omega
      rw [hA]
    · rw [List.length_take, List.length_drop]
      omega
  · rw [if_neg hnk]
    have hmin : min n (countLe (datetimes bars) dt) = countLe (datetimes bars) dt :=
      Nat.min_eq_right (le_of_not_le hnk)
    rw [hmin]
    constructor
    · rw [take_drop_swap]
      simp [Nat.sub_self]
    · rw [List.length_take, List.length_drop]
      omega

/-- C6: the daily `history_bars` window size and placement. With a valid
category, a selected series `bars` and a sorted date column, let `k` be the
number of rows whose date is at or before the reference date. Whenever the
call returns a row array, it has exactly `min n k` rows and its dates are
those of the last `min n k` rows of the `k`-prefix (so it ends at the
rightmost row dated at or before the reference date, and never exceeds `n`
rows); whenever it returns a single column, that column has `min n k`
entries. -/
theorem history_bars_window_count (src : DataSource) (ins : Instrument)
    (n : Nat) (fields : FieldsSel) (dt : ℚ) (skip : Bool) (i : Nat)
    (bars : BarSeries) (h1 : index_of ins.type = Option.some i)
    (h2 : selected_bars src ins i skip = Option.some bars)
    (h3 : ascending (datetimes bars) = true) :
    (∀ s, history_bars src ins n fields dt skip = HResult.series s →
        s.rows.length = min n (countLe (datetimes bars) dt) ∧
          s.rows.map (fun r => r "datetime")
            = ((bars.rows.take (countLe (datetimes bars) dt)).drop
                (countLe (datetimes bars) dt - min n (countLe (datetimes bars) dt))).map
              (fun r => r "datetime")) ∧
      (∀ c, history_bars src ins n fields dt skip = HResult.column c →
        c.length = min n (countLe (datetimes bars) dt)) := by
  obtain ⟨hwrows, hwlen⟩ := windowSlice_spec bars n dt h3
  by_cases hval : are_fields_valid fields bars.names = true
  · by_cases hb1 : ins.type = "Future" ∨ ins.type = "INDX"
        ∨ (windowSlice bars n dt).rows.length = 1
    · have hX : history_bars src ins n fields dt skip
          = projectBars (windowSlice bars n dt) fields := by
        simp only [history_bars, h1, h2]
        rw [if_pos hval, if_pos hb1]
      constructor
      · intro s hs
        rw [hX] at hs
        obtain ⟨hl, hm⟩ := (projectBars_shape (windowSlice bars n dt) fields).1 s hs
        refine ⟨by rw [hl, hwlen], ?_⟩
        rw [hm, hwrows]
      · intro c hc
        rw [hX] at hc
        rw [(projectBars_shape (windowSlice bars n dt) fields).2 c hc, hwlen]
    · cases fields with
      | scalar f =>
        have hX : history_bars src ins n (FieldsSel.scalar f) dt skip
            = HResult.err "TypeError" := by
          simp only [history_bars, h1, h2]
          rw [if_pos hval, if_neg hb1]
          rfl
        exact ⟨fun s hs => HResult.noConfusion (hX ▸ hs),
          fun c hc => HResult.noConfusion (hX ▸ hc)⟩
      | noneSel =>
        have hX : history_bars src ins n FieldsSel.noneSel dt skip
            = adjust_bar src ins.order_book_id (windowSlice bars n dt)
              FieldsSel.noneSel := by
          simp only [history_bars, h1, h2]
          rw [if_pos hval, if_neg hb1]
        constructor
        · intro s hs
          rw [hX] at hs
          obtain ⟨hl, hm⟩ := (adjust_bar_shape src ins.order_book_id
            (windowSlice bars n dt) FieldsSel.noneSel).1 s hs
          refine ⟨by rw [hl, hwlen], ?_⟩
          rw [hm, hwrows]
        · intro c hc
          rw [hX] at hc
          rw [(adjust_bar_shape src ins.order_book_id (windowSlice bars n dt)
            FieldsSel.noneSel).2 c hc, hwlen]
      | listSel fs =>
        have hX : history_bars src ins n (FieldsSel.listSel fs) dt skip
            = adjust_bar src ins.order_book_id (windowSlice bars n dt)
              (FieldsSel.listSel fs) := by
          simp only [history_bars, h1, h2]
          rw [if_pos hval, if_neg hb1]
        constructor
        · intro s hs
          rw [hX] at hs
          obtain ⟨hl, hm⟩ := (adjust_bar_shape src ins.order_book_id
            (windowSlice bars n dt) (FieldsSel.listSel fs)).1 s hs
          refine ⟨by rw [hl, hwlen], ?_⟩
          rw [hm, hwrows]
        · intro c hc
          rw [hX] at hc
          rw [(adjust_bar_shape src ins.order_book_id (windowSlice bars n dt)
            (FieldsSel.listSel fs)).2 c hc, hwlen]
  · have hX : history_bars src ins n fields dt skip = HResult.noData := by
      simp only [history_bars, h1, h2]
      rw [if_neg hval]
    exact ⟨fun s hs => HResult.noConfusion (hX ▸ hs),
      fun c hc => HResult.noConfusion (hX ▸ hc)⟩

/-- Witness for C6: an index series of two rows, requesting 1 bar at
reference date 20 returns exactly `min 1 k = 1` row ending at date 20. -/
theorem history_bars_window_count_witness :
    (index_of "INDX" = Option.some 1 ∧
        selected_bars srcG ⟨"000001.XSHG", "INDX"⟩ 1 false = Option.some gSeries ∧
        ascending (datetimes gSeries) = true) ∧
      (windowSlice gSeries 1 20).rows.length
          = min 1 (countLe (datetimes gSeries) 20) ∧
        (windowSlice gSeries 1 20).rows.map (fun r => r "datetime")
          = ((gSeries.rows.take (countLe (datetimes gSeries) 20)).drop
              (countLe (datetimes gSeries) 20
                - min 1 (countLe (datetimes gSeries) 20))).map
            (fun r => r "datetime") :=
  ⟨⟨by decide, rfl, by decide⟩,
    (history_bars_window_count srcG ⟨"000001.XSHG", "INDX"⟩ 1 FieldsSel.noneSel 20
        false 1 gSeries (by decide) rfl (by decide)).1
      (windowSlice gSeries 1 20) rfl⟩

theorem projectBars_series_rows (w : BarSeries) (fields : FieldsSel) (s : BarSeries)
    (h : projectBars w fields = HResult.series s) : s.rows = w.rows := by
  cases fields with
  | noneSel =>
    injection h with h2
    rw [← h2]
  | scalar f => exact HResult.noConfusion h
  | listSel fs =>
    injection h with h2
    rw [← h2]

/-- C8: whenever the adjustment engine returns a row array, it is a fresh
array of the same length in which every field that is neither a price-class
field nor `volume` holds exactly the value of the source slice (the source
slice itself, being a separate value, is untouched — the engine copies
before rewriting). -/
theorem adjust_bar_preserves_other_fields (src : DataSource) (obid : String)
    (w : BarSeries) (fields : FieldsSel) (s : BarSeries)
    (h : adjust_bar src obid w fields = HResult.series s) :
    s.rows.length = w.rows.length ∧
      ∀ (j : Nat) (f : String), f ∉ PRICE_FIELDS → f ≠ "volume" →
        (s.rows.getD j (fun _ => 0)) f = (w.rows.getD j (fun _ => 0)) f := by
  cases hex : src.exCumFactor obid with
  | none =>
    have he : adjust_bar src obid w fields = projectBars w fields := by
      simp only [adjust_bar, hex]
    rw [he] at h
    have hr := projectBars_series_rows w fields s h
    rw [hr]
    exact ⟨rfl, fun j f h1 h2 => rfl⟩
  | some ex =>
    by_cases hlen0 : w.rows.length = 0
    · have he : adjust_bar src obid w fields = HResult.err "IndexError" := by
        simp [adjust_bar, hex, hlen0]
      rw [he] at h
      exact HResult.noConfusion h
    · by_cases hfast : factor_for_date ex.start_date ex.ex_cum_factor
          ((datetimes w).getD 0 0)
          = factor_for_date ex.start_date ex.ex_cum_factor (pyGet (datetimes w) (-1))
      · have he : adjust_bar src obid w fields = projectBars w fields := by
          simp only [adjust_bar, hex]
          rw [if_neg hlen0, if_pos hfast]
        rw [he] at h
        have hr := projectBars_series_rows w fields s h
        rw [hr]
        exact ⟨rfl, fun j f h1 h2 => rfl⟩
      · have hnl : (normFactors ex w).length = w.rows.length := normFactors_length ex w
        cases fields with
        | scalar f =>
          by_cases hp : f ∈ PRICE_FIELDS
          · have he : adjust_bar src obid w (FieldsSel.scalar f) = HResult.column
                (List.zipWith (fun r k => r f * k) w.rows (normFactors ex w)) := by
              simp only [adjust_bar, hex]
              rw [if_neg hlen0, if_neg hfast]
              simp only [if_pos hp]
            rw [he] at h
            exact HResult.noConfusion h
          · by_cases hv : f = "volume"
            · have he : adjust_bar src obid w (FieldsSel.scalar f) = HResult.column
                  (List.zipWith (fun r k => r f / k) w.rows (normFactors ex w)) := by
                simp only [adjust_bar, hex]
                rw [if_neg hlen0, if_neg hfast]
                simp only [if_neg hp, if_pos hv]
              rw [he] at h
              exact HResult.noConfusion h
            · have he : adjust_bar src obid w (FieldsSel.scalar f) = HResult.column
                  (w.rows.map (fun r => r f)) := by
                simp only [adjust_bar, hex]
                rw [if_neg hlen0, if_neg hfast]
                simp only [if_neg hp, if_neg hv]
              rw [he] at h
              exact HResult.noConfusion h
        | noneSel =>
          have he : adjust_bar src obid w FieldsSel.noneSel = HResult.series
              ⟨w.names, List.zipWith (fun r k => adjustRow w.names k r) w.rows
                (normFactors ex w)⟩ := by
            simp only [adjust_bar, hex]
            rw [if_neg hlen0, if_neg hfast]
          rw [he] at h
          injection h with h2
          rw [← h2]
          have hlz : (List.zipWith (fun r k => adjustRow w.names k r) w.rows
              (normFactors ex w)).length = w.rows.length := by
            simp only [List.length_zipWith, hnl]
            exact Nat.min_self _
          refine ⟨hlz, ?_⟩
          intro j f h1 h2
          by_cases hj : j < w.rows.length
          · rw [getD_zipWith (fun r k => adjustRow w.names k r) w.rows
              (normFactors ex w) j hj (by rw [hnl]; exact hj) (fun _ => 0) 0]
            exact adjustRow_not_adjusted w.names _ _ f h1 h2
          · rw [List.getD_eq_default _ _ (by omega : w.rows.length ≤ j),
              List.getD_eq_default _ _ (by rw [hlz]; omega)]
        | listSel fs =>
          have he : adjust_bar src obid w (FieldsSel.listSel fs) = HResult.series
              ⟨fs, List.zipWith (fun r k => adjustRow fs k r) w.rows
                (normFactors ex w)⟩ := by
            simp only [adjust_bar, hex]
            rw [if_neg hlen0, if_neg hfast]
          rw [he] at h
          injection h with h2
          rw [← h2]
          have hlz : (List.zipWith (fun r k => adjustRow fs k r) w.rows
              (normFactors ex w)).length = w.rows.length := by
            simp only [List.length_zipWith, hnl]
            exact Nat.min_self _
          refine ⟨hlz, ?_⟩
          intro j f h1 h2
          by_cases hj : j < w.rows.length
          · rw [getD_zipWith (fun r k => adjustRow fs k r) w.rows
              (normFactors ex w) j hj (by rw [hnl]; exact hj) (fun _ => 0) 0]
            exact adjustRow_not_adjusted fs _ _ f h1 h2
          · rw [List.getD_eq_default _ _ (by omega : w.rows.length ≤ j),
              List.getD_eq_default _ _ (by rw [hlz]; omega)]

/-- A two-row series subject to a genuine factor change (factor 2 before
date 20, factor 1 from date 20 on). -/
def wD : BarSeries :=
  ⟨["datetime", "close", "volume"], [mkRow 10 100 1000, mkRow 20 300 500]⟩

/-- The factor series driving the adjustment of `wD`. -/
def dFactors : FactorSeries := ⟨[10, 20], [2, 1]⟩

/-- A data source giving "000004.XSHE" the factor series `dFactors`. -/
def srcD : DataSource :=
  { dayBars := fun _ _ => Option.none,
    exCumFactor := fun obid =>
      if obid = "000004.XSHE" then Option.some dFactors else Option.none }

/-- The slow-path output of the adjustment engine on `wD`. -/
def wDadj : BarSeries :=
  ⟨wD.names,
    List.zipWith (fun r k => adjustRow wD.names k r) wD.rows (normFactors dFactors wD)⟩

/-- Witness for C8 on the slow path: the adjusted series keeps `datetime`
(neither price-class nor volume) identical to the source slice. -/
theorem adjust_bar_preserves_other_fields_witness :
    (adjust_bar srcD "000004.XSHE" wD FieldsSel.noneSel = HResult.series wDadj) ∧
      (wDadj.rows.getD 0 (fun _ => 0)) "datetime"
        = (wD.rows.getD 0 (fun _ => 0)) "datetime" :=
  ⟨rfl,
    (adjust_bar_preserves_other_fields srcD "000004.XSHE" wD FieldsSel.noneSel
      wDadj rfl).2 0 "datetime" (by decide) (by decide)⟩

/-- C4: on the adjustment engine's slow path (a real factor change across
the window, taken with the full-row selector), the per-row factor vector is
the step-function factor at each row's date divided by the factor at the
last row's date; its last entry is 1 (the most recent bar is unscaled);
every price-class field present in the schema is multiplied by its row's
normalized factor and the `volume` field is divided by it. -/
theorem adjust_bar_forward (src : DataSource) (obid : String) (w : BarSeries)
    (ex : FactorSeries) (hex : src.exCumFactor obid = Option.some ex)
    (hlen0 : ¬ w.rows.length = 0)
    (hne : ¬ factor_for_date ex.start_date ex.ex_cum_factor ((datetimes w).getD 0 0)
        = factor_for_date ex.start_date ex.ex_cum_factor (pyGet (datetimes w) (-1)))
    (hf : factor_for_date ex.start_date ex.ex_cum_factor (pyGet (datetimes w) (-1)) ≠ 0) :
    ∃ s, adjust_bar src obid w FieldsSel.noneSel = HResult.series s ∧
      pyGet (normFactors ex w) (-1) = 1 ∧
      ∀ j, j < w.rows.length →
        (∀ f, f ∈ PRICE_FIELDS → f ∈ w.names →
            (s.rows.getD j (fun _ => 0)) f
              = (w.rows.getD j (fun _ => 0)) f
                * (factor_for_date ex.start_date ex.ex_cum_factor
                      ((datetimes w).getD j 0)
                  / factor_for_date ex.start_date ex.ex_cum_factor
                      (pyGet (datetimes w) (-1)))) ∧
          ("volume" ∈ w.names →
            (s.rows.getD j (fun _ => 0)) "volume"
              = (w.rows.getD j (fun _ => 0)) "volume"
                / (factor_for_date ex.start_date ex.ex_cum_factor
                      ((datetimes w).getD j 0)
                  / factor_for_date ex.start_date ex.ex_cum_factor
                      (pyGet (datetimes w) (-1)))) := by
  refine ⟨⟨w.names, List.zipWith (fun r k => adjustRow w.names k r) w.rows
    (normFactors ex w)⟩, ?_, ?_, ?_⟩
  · simp only [adjust_bar, hex]
    rw [if_neg hlen0, if_neg hne]
  · have hnl := normFactors_length ex w
    have hj : w.rows.length - 1 < w.rows.length := by omega
    rw [pyGet_neg_one, hnl, normFactors_getD ex w (w.rows.length - 1) hj]
    have hD : (datetimes w).getD (w.rows.length - 1) 0 = pyGet (datetimes w) (-1) := by
      rw [pyGet_neg_one, datetimes_length]
    rw [hD]
    exact div_self hf
  · intro j hj
    have hjz : j < (normFactors ex w).length := by
      rw [normFactors_length]
      exact hj
    have hgd : (List.zipWith (fun r k => adjustRow w.names k r) w.rows
        (normFactors ex w)).getD j (fun _ => 0)
        = adjustRow w.names ((normFactors ex w).getD j 0)
            (w.rows.getD j (fun _ => 0)) :=
      getD_zipWith (fun r k => adjustRow w.names k r) w.rows (normFactors ex w)
        j hj hjz (fun _ => 0) 0
    constructor
    · intro f hfp hfn
      rw [hgd]
      simp only [adjustRow]
      rw [if_pos hfn, if_pos hfp, normFactors_getD ex w j hj]
    · intro hvn
      rw [hgd]
      simp only [adjustRow]
      rw [if_pos hvn, if_neg (by decide : ¬ "volume" ∈ PRICE_FIELDS)]
      rw [if_pos trivial, normFactors_getD ex w j hj]

/-- Witness for C4 on `wD` with factors 2 then 1: all hypotheses hold and
the slow-path characterization follows. -/
theorem adjust_bar_forward_witness :
    (srcD.exCumFactor "000004.XSHE" = Option.some dFactors ∧
        ¬ wD.rows.length = 0 ∧
        ¬ factor_for_date dFactors.start_date dFactors.ex_cum_factor
            ((datetimes wD).getD 0 0)
          = factor_for_date dFactors.start_date dFactors.ex_cum_factor
            (pyGet (datetimes wD) (-1)) ∧
        factor_for_date dFactors.start_date dFactors.ex_cum_factor
          (pyGet (datetimes wD) (-1)) ≠ 0) ∧
      (∃ s, adjust_bar srcD "000004.XSHE" wD FieldsSel.noneSel = HResult.series s ∧
        pyGet (normFactors dFactors wD) (-1) = 1 ∧
        ∀ j, j < wD.rows.length →
          (∀ f, f ∈ PRICE_FIELDS → f ∈ wD.names →
              (s.rows.getD j (fun _ => 0)) f
                = (wD.rows.getD j (fun _ => 0)) f
                  * (factor_for_date dFactors.start_date dFactors.ex_cum_factor
                        ((datetimes wD).getD j 0)
                    / factor_for_date dFactors.start_date dFactors.ex_cum_factor
                        (pyGet (datetimes wD) (-1)))) ∧
            ("volume" ∈ wD.names →
              (s.rows.getD j (fun _ => 0)) "volume"
                = (wD.rows.getD j (fun _ => 0)) "volume"
                  / (factor_for_date dFactors.start_date dFactors.ex_cum_factor
                        ((datetimes wD).getD j 0)
                    / factor_for_date dFactors.start_date dFactors.ex_cum_factor
                        (pyGet (datetimes wD) (-1))))) :=
  ⟨⟨rfl, by decide, by decide, by decide⟩,
    adjust_bar_forward srcD "000004.XSHE" wD dFactors rfl (by decide) (by decide)
      (by decide)⟩

/-- C10: the fast path of the adjustment engine inspects the factor only at
the window's two endpoint dates: whenever those two step-function values
agree on a non-exempt (`CS`) multi-row window, `history_bars` with no field
selector returns the slice raw — regardless of the factor at interior
dates. -/
theorem history_bars_endpoint_fastpath (src : DataSource) (ins : Instrument)
    (n : Nat) (dt : ℚ) (skip : Bool) (i : Nat) (bars : BarSeries)
    (ex : FactorSeries) (h1 : index_of ins.type = Option.some i)
    (hcs : ins.type = "CS")
    (h2 : selected_bars src ins i skip = Option.some bars)
    (hex : src.exCumFactor ins.order_book_id = Option.some ex)
    (hlen : 2 ≤ (windowSlice bars n dt).rows.length)
    (heq : factor_for_date ex.start_date ex.ex_cum_factor
        ((datetimes (windowSlice bars n dt)).getD 0 0)
      = factor_for_date ex.start_date ex.ex_cum_factor
        (pyGet (datetimes (windowSlice bars n dt)) (-1))) :
    history_bars src ins n FieldsSel.noneSel dt skip
      = HResult.series (windowSlice bars n dt) := by
  have hnb : ¬ (ins.type = "Future" ∨ ins.type = "INDX"
      ∨ (windowSlice bars n dt).rows.length = 1) := by
    rw [hcs]
    push_neg
    exact ⟨by decide, by decide, by omega⟩
  simp only [history_bars, h1, h2]
  have hv : are_fields_valid FieldsSel.noneSel bars.names = true := rfl
  rw [if_pos hv]
  rw [if_neg hnb]
  simp only [adjust_bar, hex]
  rw [if_neg (by omega : ¬ (windowSlice bars n dt).rows.length = 0), if_pos heq]
  rfl

/-- A three-row series whose interior date sits in a different factor
regime than both endpoints. -/
def w10 : BarSeries :=
  ⟨["datetime", "close", "volume"],
    [mkRow 10 100 1000, mkRow 20 200 2000, mkRow 30 300 3000]⟩

/-- Factors 2, 3, 2 at breakpoints 10, 20, 30: equal at the endpoints of
the window 10..30 but different at the interior date 20. -/
def f10 : FactorSeries := ⟨[10, 20, 30], [2, 3, 2]⟩

/-- A data source giving "000010.XSHE" the bars `w10` and factors `f10`. -/
def src10 : DataSource :=
  { dayBars := fun i obid =>
      if i = 0 ∧ obid = "000010.XSHE" then Option.some w10 else Option.none,
    exCumFactor := fun obid =>
      if obid = "000010.XSHE" then Option.some f10 else Option.none }

/-- Witness for C10: endpoint factors agree (both 2) while the interior
date 20 carries factor 3, yet the whole slice is returned raw. -/
theorem history_bars_endpoint_fastpath_witness :
    (2 ≤ (windowSlice w10 3 30).rows.length ∧
        factor_for_date f10.start_date f10.ex_cum_factor
            ((datetimes (windowSlice w10 3 30)).getD 0 0)
          = factor_for_date f10.start_date f10.ex_cum_factor
            (pyGet (datetimes (windowSlice w10 3 30)) (-1)) ∧
        ¬ factor_for_date f10.start_date f10.ex_cum_factor
            ((datetimes (windowSlice w10 3 30)).getD 1 0)
          = factor_for_date f10.start_date f10.ex_cum_factor
            ((datetimes (windowSlice w10 3 30)).getD 0 0)) ∧
      history_bars src10 ⟨"000010.XSHE", "CS"⟩ 3 FieldsSel.noneSel 30 false
        = HResult.series (windowSlice w10 3 30) :=
  ⟨⟨by decide, by decide, by decide⟩,
    history_bars_endpoint_fastpath src10 ⟨"000010.XSHE", "CS"⟩ 3 30 false 0 w10 f10
      (by decide) rfl rfl rfl (by decide) (by decide)⟩
